import Mathlib

/-!
Shallow embedding of the rust-ytdownloader core (src/downloader.rs,
src/initializer.rs, src/config.rs) used to check the claims of the
specification against the code.

Conventions of the embedding:
- Rust strings are Lean String values; character-level work happens on
  String.data (a List Char).
- Rust char::is_alphanumeric, char::is_whitespace and str::trim use the
  Unicode classes; the Lean Char.isAlphanum and Char.isWhitespace predicates
  cover the ASCII fragment. Every claim checked below is insensitive to the
  exact predicate: the proofs only use that the reserved filesystem
  characters satisfy neither predicate, which holds for both the ASCII and
  the Unicode class.
- Rust f64 percent values are modelled as rationals; the arithmetic the
  claims mention (division by a positive total, comparison, the value 100)
  is exact in both models for the quantities involved.
- Effectful calls (process spawn, stdout reads, process wait, filesystem
  tests, HTTP downloads) are modelled by explicit environment records whose
  fields carry the outcome of each call; the functions below map such an
  environment to the list of status events the Rust code sends on its
  channel, in emission order.
-/

/-! Character classes and string helpers mirroring the Rust std calls. -/

/-- Rust char::is_alphanumeric (ASCII fragment, see the header note). -/
def rustIsAlphanumeric (c : Char) : Bool := c.isAlphanum

/-- Rust char::is_whitespace (ASCII fragment, see the header note). -/
def rustIsWhitespace (c : Char) : Bool := c.isWhitespace

/-- Rust str::trim on a character list: drop whitespace from both ends. -/
def trimChars (cs : List Char) : List Char :=
  ((cs.dropWhile rustIsWhitespace).reverse.dropWhile rustIsWhitespace).reverse

/-- Rust str::contains(char-or-substring) : p occurs contiguously in hay. -/
def containsSeq (hay pat : List Char) : Bool :=
  match hay with
  | [] => pat.isEmpty
  | _ :: t => List.isPrefixOf pat hay || containsSeq t pat

/-- Rust str::contains with a string pattern. -/
def strContains (s pat : String) : Bool := containsSeq s.data pat.data

/-- Accumulator pass of splitWhitespace: acc holds the current token reversed. -/
def splitWsAux : List Char → List Char → List (List Char)
  | [], acc => if acc.isEmpty then [] else [acc.reverse]
  | c :: rest, acc =>
    if rustIsWhitespace c then
      if acc.isEmpty then splitWsAux rest [] else acc.reverse :: splitWsAux rest []
    else splitWsAux rest (c :: acc)

/-- Rust str::split_whitespace: maximal whitespace-free tokens, in order. -/
def splitWhitespace (s : String) : List String :=
  (splitWsAux s.data []).map String.mk

/-- Rust str::ends_with with a char pattern. -/
def endsWithChar (s : String) (c : Char) : Bool := s.data.getLast? == some c

/-- Rust str::ends_with with a string pattern. -/
def endsWithStr (s suf : String) : Bool :=
  List.isPrefixOf suf.data.reverse s.data.reverse

/-- Rust str::trim_end_matches with a char pattern: drop every trailing c. -/
def trimEndMatches (s : String) (c : Char) : String :=
  String.mk ((s.data.reverse.dropWhile (fun d => d == c)).reverse)

/-- Numeric value of a list of ASCII digits, most significant first. -/
def digitsVal (cs : List Char) : Nat :=
  cs.foldl (fun a c => a * 10 + (c.toNat - 48)) 0

/-- Decimal body of Rust str::parse::<f64>: digits around an optional dot,
at least one digit in total. The exponent, inf and NaN forms of the Rust
grammar are not modelled; the progress tokens the classifier feeds in are
plain decimals. The value is returned as an exact rational. -/
def parseDecimalBody (body : List Char) : Option ℚ :=
  let ip := body.takeWhile (fun c => c != Char.ofNat 46)
  let rest := body.dropWhile (fun c => c != Char.ofNat 46)
  match rest with
  | [] =>
    if ip.all Char.isDigit && !ip.isEmpty then some ((digitsVal ip : ℚ)) else none
  | _ :: fp =>
    if ip.all Char.isDigit && fp.all Char.isDigit && !(ip.isEmpty && fp.isEmpty)
        && !fp.contains (Char.ofNat 46) then
      some ((digitsVal ip : ℚ) + (digitsVal fp : ℚ) / (10 : ℚ) ^ fp.length)
    else none

/-- Rust str::parse::<f64> (decimal fragment): optional sign, then the body. -/
def parseF64 (s : String) : Option ℚ :=
  match s.data with
  | '-' :: t => (parseDecimalBody t).map (fun q => -q)
  | '+' :: t => parseDecimalBody t
  | t => parseDecimalBody t

/-! Data model of src/downloader.rs. -/

/-- DownloadFormat of src/downloader.rs (lines 8-16). -/
inductive DownloadFormat
  | Mp3
  | Wav
  | M4a
  | Flac
  | Mp4
  | Webm
  deriving DecidableEq

/-- DownloadConfig of src/downloader.rs (lines 18-24); PathBuf is modelled by
its textual form. -/
structure DownloadConfig where
  url : String
  format : DownloadFormat
  audio_quality : String
  output_dir : String

/-- DownloadStatus of src/downloader.rs (lines 26-34). -/
inductive DownloadStatus
  | Starting (msg : String)
  | Progress (percent : ℚ) (speed : String)
  | Converting
  | Completed (filename : String)
  | Failed (msg : String)
  | Stopped
  deriving DecidableEq

/-- The allow-list literal of sanitize_filename (downloader.rs line 220);
the final character is the apostrophe. -/
def allowedPunct : List Char :=
  ['-', '_', '(', ')', '[', ']', '.', ',', '!', '&', Char.ofNat 39]

/-- The filter predicate of sanitize_filename (downloader.rs line 220). -/
def keepChar (c : Char) : Bool :=
  rustIsAlphanumeric c || rustIsWhitespace c || allowedPunct.contains c

/-- The reserved filesystem characters of the map arm of sanitize_filename
(downloader.rs line 222): slash, backslash, colon, star, question mark,
double quote, less-than, greater-than, pipe. -/
def reservedChars : List Char :=
  ['/', '\\', ':', '*', '?', Char.ofNat 34, '<', '>', '|']

/-- The map step of sanitize_filename (downloader.rs lines 221-224). -/
def mapReserved (c : Char) : Char :=
  if reservedChars.contains c then '_' else c

/-- sanitize_filename of src/downloader.rs (lines 217-228) on a character
list: filter to the kept classes, map reserved characters to underscore,
trim surrounding whitespace. -/
def sanitizeChars (cs : List Char) : List Char :=
  trimChars ((cs.filter keepChar).map mapReserved)

/-- sanitize_filename of src/downloader.rs (lines 217-228). -/
def sanitize_filename (s : String) : String :=
  String.mk (sanitizeChars s.data)

/-- PathBuf::join with the Unix separator, followed by to_string_lossy. -/
def pathJoin (dir file : String) : String := dir ++ "/" ++ file

/-- The output template of download_video (downloader.rs lines 65-72): both
match arms build the same path. -/
def output_template (cfg : DownloadConfig) (sanitized : String) : String :=
  pathJoin cfg.output_dir (sanitized ++ ".%(ext)s")

/-- The format-specific argument branch of download_video (downloader.rs
lines 84-122). -/
def format_args (cfg : DownloadConfig) : List String :=
  match cfg.format with
  | DownloadFormat.Mp3 =>
    ["-x", "--audio-format", "mp3", "--audio-quality", cfg.audio_quality]
  | DownloadFormat.Wav => ["-x", "--audio-format", "wav"]
  | DownloadFormat.M4a => ["-x", "--audio-format", "m4a"]
  | DownloadFormat.Flac => ["-x", "--audio-format", "flac"]
  | DownloadFormat.Mp4 =>
    ["-f", "bestvideo[ext=mp4]+bestaudio[ext=m4a]/best[ext=mp4]/best",
     "--merge-output-format", "mp4"]
  | DownloadFormat.Webm =>
    ["-f", "bestvideo[ext=webm]+bestaudio/best", "--merge-output-format", "webm"]

/-- The full argument list of download_video (downloader.rs lines 74-125):
the common flags and the -o template, then the format branch, then the URL. -/
def build_args (cfg : DownloadConfig) (title : String) : List String :=
  ["--no-playlist", "--newline", "--progress", "--embed-thumbnail",
   "--add-metadata", "-o", output_template cfg (sanitize_filename title)]
  ++ format_args cfg ++ [cfg.url]

/-- The percent token of the stdout classifier (downloader.rs line 176): the
first whitespace-delimited token ending in the percent sign. -/
def percentToken (line : String) : Option String :=
  (splitWhitespace line).find? (fun s => endsWithChar s '%')

/-- The speed label of the stdout classifier (downloader.rs lines 178-181):
the first whitespace-delimited token ending in /s, or the empty string. -/
def speedLabel (line : String) : String :=
  ((splitWhitespace line).find? (fun s => endsWithStr s "/s")).getD ""

/-- The progress arm of the stdout classifier (downloader.rs lines 175-185). -/
def classifyProgress (line : String) : List DownloadStatus :=
  if strContains line "[download]" && strContains line "%" then
    match percentToken line with
    | some ptok =>
      match parseF64 (trimEndMatches ptok '%') with
      | some percent => [DownloadStatus.Progress percent (speedLabel line)]
      | none => []
    | none => []
  else []

/-- The converting arm of the stdout classifier (downloader.rs lines 187-189). -/
def classifyConverting (line : String) : List DownloadStatus :=
  if strContains line "[ExtractAudio]" || strContains line "[Merger]" then
    [DownloadStatus.Converting]
  else []

/-- The statuses one stdout line produces (downloader.rs lines 174-190): the
two arms run in order and are not exclusive. -/
def classifyLine (line : String) : List DownloadStatus :=
  classifyProgress line ++ classifyConverting line

/-- The statuses the reader loop produces over the lines of stdout, in order
(downloader.rs lines 171-192). -/
def classify_lines : List String → List DownloadStatus
  | [] => []
  | l :: rest => classifyLine l ++ classify_lines rest

/-- Outcome of the effectful calls of one download_video run: the result of
Command::spawn (some e models Err(e)), the Ok lines read from the stdout of
the child, and the result of Child::wait (Except.ok b models an exit status
with success bit b, Except.error models a wait error). -/
structure RunEnv where
  spawnError : Option String
  stdoutLines : List String
  waitResult : Except Unit Bool

/-- download_video of src/downloader.rs (lines 36-215) as the list of
DownloadStatus events it sends, in order: the Starting status is sent
(line 127) before the spawn attempt (line 142); a spawn error sends Failed
and returns; otherwise the stdout lines are classified and exactly one
terminal status is sent after the wait. The killer thread (lines 153-162)
only kills the child process and sends nothing. -/
def download_video (cfg : DownloadConfig) (title : String) (env : RunEnv) :
    List DownloadStatus :=
  DownloadStatus.Starting "다운로드 시작..." ::
  match env.spawnError with
  | some e => [DownloadStatus.Failed ("실행 실패: " ++ e)]
  | none =>
    classify_lines env.stdoutLines ++
    [match env.waitResult with
     | Except.ok true => DownloadStatus.Completed title
     | Except.ok false => DownloadStatus.Failed "다운로드 실패 (또는 중단)"
     | Except.error _ => DownloadStatus.Failed "프로세스 대기 오류"]

/-- A DownloadStatus is terminal when it is Completed, Failed or Stopped. -/
def isTerminal : DownloadStatus → Bool
  | DownloadStatus.Completed _ => true
  | DownloadStatus.Failed _ => true
  | DownloadStatus.Stopped => true
  | _ => false

/-! Data model of src/initializer.rs. -/

/-- InitStatus of src/initializer.rs (lines 7-14). -/
inductive InitStatus
  | Starting (msg : String)
  | Downloading (percent : ℚ) (filename : String)
  | Extracting (msg : String)
  | Completed
  | Failed (msg : String)
  deriving DecidableEq

/-- Modelled from the spec: rust_i18n::t! resolves a message key against
locale tables that are not part of src/; the lookup is modelled as the key
followed by the interpolated argument. Every claim below depends only on
which constructor carries the message, never on the text. -/
def tMsg (key arg : String) : String := key ++ ": " ++ arg

/-- Modelled from the spec: rust_i18n::t! on a key with no argument. -/
def tKey (key : String) : String := key

/-- Outcome of one download helper (download_ytdlp or download_ffmpeg) when
invoked: the InitStatus events it sends itself, and some e when it returns
Err(e). -/
structure DlOutcome where
  events : List InitStatus
  result : Option String

/-- Outcome of the effectful calls of one init_dependencies run. The
filesystem booleans are the three Path::exists tests; createDirError is the
result of fs::create_dir_all when it runs; the DlOutcome fields describe the
two download helpers when they run; the Except fields are the results of
update_ytdlp and check_ffmpeg. -/
structure InitEnv where
  appDirExists : Bool
  createDirError : Option String
  ytdlpExists : Bool
  ffmpegExists : Bool
  dlYtdlp : DlOutcome
  dlFfmpeg : DlOutcome
  updYtdlp : Except String String
  chkFfmpeg : Except String String

/-- The non-fatal update-check tail of init_dependencies (initializer.rs
lines 46-73): four Starting statuses then Completed. -/
def update_phase (env : InitEnv) : List InitStatus :=
  [InitStatus.Starting (tKey "initialization.ytdlp_update_check")] ++
  (match env.updYtdlp with
   | Except.ok msg => [InitStatus.Starting ("yt-dlp: " ++ msg)]
   | Except.error e =>
     [InitStatus.Starting (tMsg "initialization.ytdlp_update_fail" e)]) ++
  [InitStatus.Starting (tKey "initialization.ffmpeg_check")] ++
  (match env.chkFfmpeg with
   | Except.ok msg => [InitStatus.Starting ("ffmpeg: " ++ msg)]
   | Except.error e =>
     [InitStatus.Starting (tMsg "initialization.ffmpeg_check_fail" e)]) ++
  [InitStatus.Completed]

/-- The ffmpeg stage of init_dependencies (initializer.rs lines 37-44)
followed by the update phase. The second component counts the network
downloads performed. -/
def ffmpeg_phase (env : InitEnv) : List InitStatus × ℕ :=
  if env.ffmpegExists then (update_phase env, 0)
  else
    match env.dlFfmpeg.result with
    | some e =>
      (env.dlFfmpeg.events ++
       [InitStatus.Failed (tMsg "initialization.ffmpeg_download_fail" e)], 1)
    | none => (env.dlFfmpeg.events ++ update_phase env, 1)

/-- The yt-dlp stage of init_dependencies (initializer.rs lines 28-35)
followed by the rest. -/
def ytdlp_phase (env : InitEnv) : List InitStatus × ℕ :=
  if env.ytdlpExists then ffmpeg_phase env
  else
    match env.dlYtdlp.result with
    | some e =>
      (env.dlYtdlp.events ++
       [InitStatus.Failed (tMsg "initialization.ytdlp_download_fail" e)], 1)
    | none =>
      (env.dlYtdlp.events ++ (ffmpeg_phase env).1, (ffmpeg_phase env).2 + 1)

/-- init_dependencies of src/initializer.rs (lines 19-74) as the list of
InitStatus events it sends, in order, paired with the number of network
downloads it performs: the app-directory stage (lines 20-26), then the two
tool stages, then the update phase. -/
def init_dependencies (env : InitEnv) : List InitStatus × ℕ :=
  if env.appDirExists then ytdlp_phase env
  else
    match env.createDirError with
    | some e => ([InitStatus.Failed (tMsg "initialization.folder_error" e)], 0)
    | none => ytdlp_phase env

/-- The read loop of download_file (initializer.rs lines 207-220): reads are
the successful chunk sizes in order, the loop stops at the first zero read,
and a Downloading status with the exact percent is sent after each chunk when
the total size is known and positive. -/
def read_loop (totalSize : ℕ) (filename : String) (downloaded : ℕ) :
    List ℕ → List InitStatus
  | [] => []
  | n :: rest =>
    if n = 0 then []
    else
      (if 0 < totalSize then
        [InitStatus.Downloading (((downloaded + n : ℕ) : ℚ) / (totalSize : ℚ) * 100)
          filename]
       else []) ++ read_loop totalSize filename (downloaded + n) rest

/-- The progress events of download_file (initializer.rs lines 199-220):
total_size is content_length().unwrap_or(0) and the loop starts with zero
bytes downloaded. -/
def download_file_progress (contentLength : Option ℕ) (filename : String)
    (reads : List ℕ) : List InitStatus :=
  read_loop (contentLength.getD 0) filename 0 reads

/-- The percents carried by the Downloading events of a status list. -/
def downloadingPercents (evs : List InitStatus) : List ℚ :=
  evs.filterMap (fun e =>
    match e with
    | InitStatus.Downloading p _ => some p
    | _ => none)

/-! Data model of src/config.rs. -/

/-- AppConfig::format_to_string of src/config.rs (lines 73-82). -/
def format_to_string : DownloadFormat → String
  | DownloadFormat.Mp3 => "mp3"
  | DownloadFormat.Wav => "wav"
  | DownloadFormat.M4a => "m4a"
  | DownloadFormat.Flac => "flac"
  | DownloadFormat.Mp4 => "mp4"
  | DownloadFormat.Webm => "webm"

/-- AppConfig::string_to_format of src/config.rs (lines 85-94): the wildcard
arm returns Mp3. -/
def string_to_format (s : String) : DownloadFormat :=
  if s = "wav" then DownloadFormat.Wav
  else if s = "m4a" then DownloadFormat.M4a
  else if s = "flac" then DownloadFormat.Flac
  else if s = "mp4" then DownloadFormat.Mp4
  else if s = "webm" then DownloadFormat.Webm
  else DownloadFormat.Mp3

/-! Lemmas about sanitize_filename. -/

/-- Every reserved filesystem character fails the filter predicate: none is
alphanumeric, whitespace, or in the allow-list. -/
theorem reserved_not_kept : ∀ c ∈ reservedChars, keepChar c = false := by decide

/-- On characters the filter keeps, the reserved-character map is the
identity, because the filter has already removed every reserved character. -/
theorem keep_map_id (c : Char) (hc : keepChar c = true) : mapReserved c = c := by
  unfold mapReserved
  split
  next h =>
    have hmem : c ∈ reservedChars := by simpa using h
    have := reserved_not_kept c hmem
    rw [hc] at this
    exact absurd this (by simp)
  next => rfl

theorem map_filter_id (cs : List Char) :
    (cs.filter keepChar).map mapReserved = cs.filter keepChar := by
  induction cs with
  | nil => rfl
  | cons a t ih =>
    by_cases h : keepChar a = true
    · simp [List.filter_cons, h, keep_map_id a h, ih]
    · simp [List.filter_cons, h, ih]

/-- The map step of sanitizeChars is unreachable: sanitizing is filtering
followed by trimming. -/
theorem sanitizeChars_eq (cs : List Char) :
    sanitizeChars cs = trimChars (cs.filter keepChar) := by
  unfold sanitizeChars
  rw [map_filter_id]

theorem dropWhile_idem (p : Char → Bool) (l : List Char) :
    (l.dropWhile p).dropWhile p = l.dropWhile p := by
  induction l with
  | nil => rfl
  | cons a t ih =>
    by_cases h : p a = true
    · simp [List.dropWhile_cons, h, ih]
    · simp [List.dropWhile_cons, h]

theorem dropWhile_eq_self_of_pre {p : Char → Bool} {l m : List Char}
    (h : l.dropWhile p = l) (hm : m <+: l) : m.dropWhile p = m := by
  cases m with
  | nil => rfl
  | cons a t =>
    cases l with
    | nil => simp at hm
    | cons b u =>
      obtain ⟨hab, -⟩ := List.cons_prefix_cons.mp hm
      subst hab
      have hb : ¬ p a = true := by
        intro hpa
        rw [List.dropWhile_cons, if_pos hpa] at h
        have hle : (u.dropWhile p).length ≤ u.length :=
          (List.dropWhile_suffix p).length_le
        rw [h] at hle
        simp at hle
      rw [List.dropWhile_cons, if_neg hb]

theorem rtrim_pre (p : Char → Bool) (l : List Char) :
    (l.reverse.dropWhile p).reverse <+: l := by
  have h2 := List.reverse_prefix.mpr (@List.dropWhile_suffix _ l.reverse p)
  simpa using h2

theorem trimChars_idem (cs : List Char) : trimChars (trimChars cs) = trimChars cs := by
  have h1 : (cs.dropWhile rustIsWhitespace).dropWhile rustIsWhitespace =
      cs.dropWhile rustIsWhitespace := dropWhile_idem _ _
  have hpre : trimChars cs <+: cs.dropWhile rustIsWhitespace :=
    rtrim_pre _ _
  have h2 : (trimChars cs).dropWhile rustIsWhitespace = trimChars cs :=
    dropWhile_eq_self_of_pre h1 hpre
  show ((((trimChars cs).dropWhile rustIsWhitespace).reverse).dropWhile
      rustIsWhitespace).reverse = trimChars cs
  rw [h2]
  show ((((cs.dropWhile rustIsWhitespace).reverse.dropWhile
      rustIsWhitespace).reverse).reverse.dropWhile rustIsWhitespace).reverse = _
  rw [List.reverse_reverse, dropWhile_idem]
  rfl

theorem mem_trimChars {c : Char} {cs : List Char} (h : c ∈ trimChars cs) :
    c ∈ cs := by
  unfold trimChars at h
  rw [List.mem_reverse] at h
  have h2 := (List.dropWhile_suffix rustIsWhitespace).sublist.subset h
  rw [List.mem_reverse] at h2
  exact (List.dropWhile_suffix rustIsWhitespace).sublist.subset h2

theorem mem_sanitize_keep {c : Char} {cs : List Char} (h : c ∈ sanitizeChars cs) :
    keepChar c = true := by
  rw [sanitizeChars_eq] at h
  exact (List.mem_filter.mp (mem_trimChars h)).2

theorem sanitizeChars_idem (cs : List Char) :
    sanitizeChars (sanitizeChars cs) = sanitizeChars cs := by
  have hall : ∀ c ∈ sanitizeChars cs, keepChar c = true :=
    fun c hc => mem_sanitize_keep hc
  rw [sanitizeChars_eq (sanitizeChars cs), List.filter_eq_self.mpr hall]
  conv_lhs => rw [sanitizeChars_eq cs]
  rw [trimChars_idem, ← sanitizeChars_eq]

/-- C8: sanitize_filename is idempotent, and its output never contains a
reserved filesystem character. -/
theorem c8_sanitize_idempotent :
    (∀ s : String, sanitize_filename (sanitize_filename s) = sanitize_filename s) ∧
    (∀ s : String, ∀ c ∈ (sanitize_filename s).data, c ∉ reservedChars) := by
  constructor
  · intro s
    show String.mk (sanitizeChars (sanitizeChars s.data)) = String.mk (sanitizeChars s.data)
    rw [sanitizeChars_idem]
  · intro s c hc hr
    have hc2 : c ∈ sanitizeChars s.data := hc
    have hk : keepChar c = true := mem_sanitize_keep hc2
    have hf := reserved_not_kept c hr
    rw [hk] at hf
    exact absurd hf (by simp)

/-- C2 counterexample: the code deletes the slash and the colon instead of
mapping the colon to an underscore, so the scenario title does not produce
the claimed filename. -/
theorem c2_counterexample :
    sanitize_filename "Test / Song: 1" = "Test  Song 1" ∧
    sanitize_filename "Test / Song: 1" ≠ "Test Song_ 1" := by
  constructor
  · decide
  · decide

/-- C2 amended: sanitize_filename keeps only characters that are
alphanumeric, whitespace or in the allow-list, which already removes every
reserved filesystem character before the underscore map can see it, and then
trims; the scenario title yields the double-spaced name with the colon
deleted. -/
theorem c2_amended :
    (∀ s : String,
      sanitize_filename s = String.mk (trimChars (s.data.filter keepChar))) ∧
    sanitize_filename "Test / Song: 1" = "Test  Song 1" := by
  refine ⟨fun s => ?_, by decide⟩
  show String.mk (sanitizeChars s.data) = _
  rw [sanitizeChars_eq]

/-! Claims C3 and C1: status stream of download_video. -/

/-- A concrete configuration used by closed statements below. -/
def cfgDemo : DownloadConfig :=
  { url := "u", format := DownloadFormat.Mp3, audio_quality := "320K",
    output_dir := "out" }

/-- C3 counterexample: on a run whose spawn fails, the stream is Starting
followed by Failed, so Failed is not the only status and Starting was sent
although the spawn never succeeded. -/
theorem c3_counterexample :
    download_video cfgDemo "t" ⟨some "boom", [], Except.ok true⟩ =
      [DownloadStatus.Starting "다운로드 시작...",
       DownloadStatus.Failed "실행 실패: boom"] ∧
    DownloadStatus.Starting "다운로드 시작..." ∈
      download_video cfgDemo "t" ⟨some "boom", [], Except.ok true⟩ := by
  refine ⟨rfl, ?_⟩
  rw [show download_video cfgDemo "t" ⟨some "boom", [], Except.ok true⟩ =
    [DownloadStatus.Starting "다운로드 시작...",
     DownloadStatus.Failed "실행 실패: boom"] from rfl]
  exact List.mem_cons_self _ _

/-- C3 amended: Starting is the first status of every run, sent immediately
before the spawn attempt; when the spawn fails the stream is exactly
Starting then Failed with the OS error, with no further processing. -/
theorem c3_amended (cfg : DownloadConfig) (title : String) (env : RunEnv) :
    (download_video cfg title env).head? =
      some (DownloadStatus.Starting "다운로드 시작...") ∧
    (∀ e, env.spawnError = some e →
      download_video cfg title env =
        [DownloadStatus.Starting "다운로드 시작...",
         DownloadStatus.Failed ("실행 실패: " ++ e)]) := by
  refine ⟨rfl, ?_⟩
  intro e he
  unfold download_video
  rw [he]

/-- C10: the format conversions of AppConfig round-trip, and every string
other than the five non-mp3 names falls through to Mp3. -/
theorem c10_format_roundtrip :
    (∀ f : DownloadFormat, string_to_format (format_to_string f) = f) ∧
    (∀ s : String, s ≠ "wav" → s ≠ "m4a" → s ≠ "flac" → s ≠ "mp4" →
      s ≠ "webm" → string_to_format s = DownloadFormat.Mp3) := by
  constructor
  · intro f
    cases f <;> decide
  · intro s h1 h2 h3 h4 h5
    simp [string_to_format, h1, h2, h3, h4, h5]

theorem classifyProgress_shape (l : String) :
    classifyProgress l = [] ∨
    ∃ p, classifyProgress l = [DownloadStatus.Progress p (speedLabel l)] := by
  unfold classifyProgress
  split
  · split
    · split
      · right; exact ⟨_, rfl⟩
      · left; rfl
    · left; rfl
  · left; rfl

theorem classifyLine_not_terminal {l : String} {e : DownloadStatus}
    (h : e ∈ classifyLine l) : isTerminal e = false := by
  unfold classifyLine at h
  rw [List.mem_append] at h
  cases h with
  | inl h =>
    rcases classifyProgress_shape l with hs | ⟨p, hs⟩ <;> rw [hs] at h
    · simp at h
    · simp at h
      subst h
      rfl
  | inr h =>
    unfold classifyConverting at h
    split at h
    · simp at h
      subst h
      rfl
    · simp at h

theorem classify_lines_countP_terminal (lines : List String) :
    (classify_lines lines).countP (fun e => isTerminal e) = 0 := by
  induction lines with
  | nil => rfl
  | cons l rest ih =>
    show (classifyLine l ++ classify_lines rest).countP _ = 0
    rw [List.countP_append, ih, Nat.add_zero]
    exact List.countP_eq_zero.mpr
      (fun e he => by simp [classifyLine_not_terminal he])

theorem classify_lines_no_stopped (lines : List String) :
    DownloadStatus.Stopped ∉ classify_lines lines := by
  intro h
  induction lines with
  | nil => simp [classify_lines] at h
  | cons l rest ih =>
    rw [show classify_lines (l :: rest) = classifyLine l ++ classify_lines rest
      from rfl, List.mem_append] at h
    cases h with
    | inl h =>
      have := classifyLine_not_terminal h
      simp [isTerminal] at this
    | inr h => exact ih h

/-- C1: every run of download_video sends exactly one terminal status
(Completed, Failed or Stopped), and the supervisor itself never sends
Stopped. -/
theorem c1_exactly_one_terminal (cfg : DownloadConfig) (title : String)
    (env : RunEnv) :
    (download_video cfg title env).countP (fun e => isTerminal e) = 1 ∧
    DownloadStatus.Stopped ∉ download_video cfg title env := by
  unfold download_video
  cases hs : env.spawnError with
  | some e =>
    constructor
    · simp [List.countP_cons, isTerminal]
    · simp
  | none =>
    constructor
    · rw [List.countP_cons, List.countP_append, classify_lines_countP_terminal]
      cases hw : env.waitResult with
      | ok b => cases b <;> simp [List.countP_cons, isTerminal]
      | error u => simp [List.countP_cons, isTerminal]
    · intro h
      rw [List.mem_cons] at h
      rcases h with h | h
      · exact absurd h (by simp)
      · rw [List.mem_append] at h
        rcases h with h | h
        · exact classify_lines_no_stopped env.stdoutLines h
        · cases hw : env.waitResult with
          | ok b =>
            rw [hw] at h
            cases b <;> simp at h
          | error u =>
            rw [hw] at h
            simp at h

/-! Claims C5 and C6: status stream of init_dependencies. -/

/-- C5: when the app data directory is missing and its creation fails, the
whole bootstrap stream is the single Failed status (and no download runs). -/
theorem c5_dir_create_failure (env : InitEnv) (e : String)
    (h1 : env.appDirExists = false) (h2 : env.createDirError = some e) :
    init_dependencies env =
      ([InitStatus.Failed (tMsg "initialization.folder_error" e)], 0) := by
  unfold init_dependencies
  rw [h1, h2]
  simp

/-- A concrete environment whose directory creation fails. -/
def envDirFail : InitEnv :=
  { appDirExists := false, createDirError := some "denied", ytdlpExists := true,
    ffmpegExists := true, dlYtdlp := ⟨[], none⟩, dlFfmpeg := ⟨[], none⟩,
    updYtdlp := Except.ok "ok", chkFfmpeg := Except.ok "ok" }

theorem c5_witness :
    init_dependencies envDirFail =
      ([InitStatus.Failed (tMsg "initialization.folder_error" "denied")], 0) :=
  c5_dir_create_failure envDirFail "denied" rfl rfl

/-- C6: when both tool binaries are already on disk (hence the app directory
exists), the bootstrap performs no network download, its stream holds no
Downloading and no Extracting status, and it ends with Completed. -/
theorem c6_bootstrap_skip (env : InitEnv) (hd : env.appDirExists = true)
    (hy : env.ytdlpExists = true) (hf : env.ffmpegExists = true) :
    (init_dependencies env).2 = 0 ∧
    (∀ p f, InitStatus.Downloading p f ∉ (init_dependencies env).1) ∧
    (∀ m, InitStatus.Extracting m ∉ (init_dependencies env).1) ∧
    ((init_dependencies env).1).getLast? = some InitStatus.Completed := by
  have hinit : init_dependencies env = (update_phase env, 0) := by
    unfold init_dependencies ytdlp_phase ffmpeg_phase
    simp [hd, hy, hf]
  rw [hinit]
  refine ⟨rfl, ?_, ?_, ?_⟩
  · intro p f
    cases hu : env.updYtdlp <;> cases hk : env.chkFfmpeg <;>
      simp [update_phase, hu, hk]
  · intro m
    cases hu : env.updYtdlp <;> cases hk : env.chkFfmpeg <;>
      simp [update_phase, hu, hk]
  · cases hu : env.updYtdlp <;> cases hk : env.chkFfmpeg <;>
      simp [update_phase, hu, hk]

/-- A concrete environment where both tools are already installed. -/
def envSkip : InitEnv :=
  { appDirExists := true, createDirError := none, ytdlpExists := true,
    ffmpegExists := true, dlYtdlp := ⟨[], none⟩, dlFfmpeg := ⟨[], none⟩,
    updYtdlp := Except.ok "yt-dlp is up to date",
    chkFfmpeg := Except.ok "version n6.0" }

theorem c6_witness :
    (init_dependencies envSkip).2 = 0 ∧
    (∀ p f, InitStatus.Downloading p f ∉ (init_dependencies envSkip).1) ∧
    (∀ m, InitStatus.Extracting m ∉ (init_dependencies envSkip).1) ∧
    ((init_dependencies envSkip).1).getLast? = some InitStatus.Completed :=
  c6_bootstrap_skip envSkip rfl rfl rfl

/-! Claim C7: percents of the download_file read loop. -/

theorem read_loop_zero_total (filename : String) :
    ∀ (reads : List ℕ) (d : ℕ), read_loop 0 filename d reads = [] := by
  intro reads
  induction reads with
  | nil => intro d; rfl
  | cons n rest ih =>
    intro d
    by_cases hn : n = 0
    · simp [read_loop, hn]
    · simp [read_loop, hn, ih]

theorem rl_percents_cons (L : ℕ) (hL : 0 < L) (f : String) (d n : ℕ)
    (rest : List ℕ) (hn : n ≠ 0) :
    downloadingPercents (read_loop L f d (n :: rest)) =
      (((d + n : ℕ) : ℚ) / (L : ℚ) * 100) ::
        downloadingPercents (read_loop L f (d + n) rest) := by
  simp [read_loop, hn, hL, downloadingPercents]

theorem rl_head_ge (L : ℕ) (hL : 0 < L) (f : String) :
    ∀ (reads : List ℕ) (d : ℕ) (q : ℚ),
      (downloadingPercents (read_loop L f d reads)).head? = some q →
      ((d : ℚ) / (L : ℚ)) * 100 ≤ q := by
  intro reads
  induction reads with
  | nil => intro d q h; simp [read_loop, downloadingPercents] at h
  | cons n rest ih =>
    intro d q h
    by_cases hn : n = 0
    · simp [read_loop, hn, downloadingPercents] at h
    · rw [rl_percents_cons L hL f d n rest hn, List.head?_cons] at h
      have hq := Option.some.inj h
      rw [← hq]
      have hLq : (0 : ℚ) < (L : ℚ) := by exact_mod_cast hL
      have hdn : (d : ℚ) ≤ ((d + n : ℕ) : ℚ) := by exact_mod_cast Nat.le_add_right d n
      exact mul_le_mul_of_nonneg_right ((div_le_div_iff_of_pos_right hLq).mpr hdn)
        (by norm_num)

theorem rl_chain (L : ℕ) (hL : 0 < L) (f : String) :
    ∀ (reads : List ℕ) (d : ℕ),
      List.Chain' (· ≤ ·) (downloadingPercents (read_loop L f d reads)) := by
  intro reads
  induction reads with
  | nil => intro d; simp [read_loop, downloadingPercents]
  | cons n rest ih =>
    intro d
    by_cases hn : n = 0
    · simp [read_loop, hn, downloadingPercents]
    · rw [rl_percents_cons L hL f d n rest hn, List.chain'_cons']
      refine ⟨fun y hy => ?_, ih (d + n)⟩
      exact rl_head_ge L hL f rest (d + n) y (Option.mem_def.mp hy)

theorem rl_last (L : ℕ) (hL : 0 < L) (f : String) :
    ∀ (reads : List ℕ) (d : ℕ), (∀ n ∈ reads, n ≠ 0) → reads ≠ [] →
      (downloadingPercents (read_loop L f d reads)).getLast? =
        some (((d + reads.sum : ℕ) : ℚ) / (L : ℚ) * 100) := by
  intro reads
  induction reads with
  | nil => intro d _ h; exact absurd rfl h
  | cons n rest ih =>
    intro d hnz _
    have hn : n ≠ 0 := hnz n (by simp)
    rw [rl_percents_cons L hL f d n rest hn]
    cases hrest : rest with
    | nil =>
      subst hrest
      simp [read_loop, downloadingPercents]
    | cons m rest2 =>
      rw [← hrest]
      have hm : m ≠ 0 := hnz m (by simp [hrest])
      have hne : downloadingPercents (read_loop L f (d + n) rest) ≠ [] := by
        rw [hrest, rl_percents_cons L hL f (d + n) m rest2 hm]
        simp
      have hih := ih (d + n) (fun k hk => hnz k (List.mem_cons_of_mem n hk))
        (by rw [hrest]; simp)
      obtain ⟨y, tl2, hytl⟩ : ∃ y tl2,
          downloadingPercents (read_loop L f (d + n) rest) = y :: tl2 := by
        cases hcase : downloadingPercents (read_loop L f (d + n) rest) with
        | nil => exact absurd hcase hne
        | cons y tl2 => exact ⟨y, tl2, rfl⟩
      rw [hytl, List.getLast?_cons_cons]
      rw [hytl] at hih
      rw [hih]
      simp [List.sum_cons, Nat.add_assoc]

/-- C7: with a known positive Content-Length L fully read, the percents of
the Downloading events are monotonically non-decreasing and end at exactly
100; with an absent or zero Content-Length the loop emits no Downloading
event at all. -/
theorem c7_download_percents (L : ℕ) (filename : String) (reads : List ℕ)
    (hL : 0 < L) (hsum : reads.sum = L) (hnz : ∀ n ∈ reads, n ≠ 0) :
    List.Chain' (· ≤ ·)
      (downloadingPercents (download_file_progress (some L) filename reads)) ∧
    (downloadingPercents (download_file_progress (some L) filename reads)).getLast?
      = some 100 ∧
    (∀ reads2 : List ℕ,
      download_file_progress none filename reads2 = [] ∧
      download_file_progress (some 0) filename reads2 = []) := by
  refine ⟨rl_chain L hL filename reads 0, ?_, ?_⟩
  · have hne : reads ≠ [] := by
      intro h
      rw [h] at hsum
      rw [← hsum] at hL
      exact absurd hL (by simp)
    have hlast := rl_last L hL filename reads 0 hnz hne
    rw [show download_file_progress (some L) filename reads =
      read_loop L filename 0 reads from rfl, hlast, Nat.zero_add, hsum]
    have hLq : (L : ℚ) ≠ 0 := by
      have : (0 : ℚ) < (L : ℚ) := by exact_mod_cast hL
      exact ne_of_gt this
    rw [div_self hLq, one_mul]
  · intro reads2
    exact ⟨read_loop_zero_total filename reads2 0,
      read_loop_zero_total filename reads2 0⟩

theorem c7_witness :
    (downloadingPercents
      (download_file_progress (some 10) "yt-dlp" [4, 6])).getLast? = some 100 :=
  (c7_download_percents 10 "yt-dlp" [4, 6] (by decide) (by decide)
    (by decide)).2.1

/-! Claim C4: the stdout line classifier. -/

theorem mem_classifyConverting {l : String} {e : DownloadStatus}
    (h : e ∈ classifyConverting l) : e = DownloadStatus.Converting := by
  unfold classifyConverting at h
  split at h
  · simpa using h
  · simp at h

theorem converting_not_in_classifyProgress (l : String) :
    DownloadStatus.Converting ∉ classifyProgress l := by
  intro h
  rcases classifyProgress_shape l with hs | ⟨p, hs⟩ <;> rw [hs] at h <;> simp at h

/-- C4: a line yields Progress(p, s) exactly when it carries both the
download tag and a percent sign and its (first) percent-ending token parses
to p, with s the (first) speed token or empty; a line whose percent token
fails to parse yields no Progress; and a line yields Converting exactly when
it carries the extract-audio or merger tag. -/
theorem c4_line_classifier (l : String) :
    (∀ p s, DownloadStatus.Progress p s ∈ classifyLine l ↔
      (strContains l "[download]" = true ∧ strContains l "%" = true ∧
       (∃ t, percentToken l = some t ∧
         parseF64 (trimEndMatches t '%') = some p) ∧
       s = speedLabel l)) ∧
    (∀ t, percentToken l = some t → parseF64 (trimEndMatches t '%') = none →
      ∀ p s, DownloadStatus.Progress p s ∉ classifyLine l) ∧
    (DownloadStatus.Converting ∈ classifyLine l ↔
      (strContains l "[ExtractAudio]" = true ∨ strContains l "[Merger]" = true)) := by
  have hprog : ∀ p s, DownloadStatus.Progress p s ∈ classifyLine l ↔
      (strContains l "[download]" = true ∧ strContains l "%" = true ∧
       (∃ t, percentToken l = some t ∧
         parseF64 (trimEndMatches t '%') = some p) ∧
       s = speedLabel l) := by
    intro p s
    constructor
    · intro h
      rw [classifyLine, List.mem_append] at h
      rcases h with h | h
      · unfold classifyProgress at h
        split at h
        next hc =>
          rw [Bool.and_eq_true] at hc
          split at h
          next t ht =>
            split at h
            next q hq =>
              simp at h
              obtain ⟨hp, hs⟩ := h
              exact ⟨hc.1, hc.2, ⟨t, ht, by rw [hq, hp]⟩, hs⟩
            next hq => simp at h
          next ht => simp at h
        next hc => simp at h
      · have := mem_classifyConverting h
        simp at this
    · rintro ⟨h1, h2, ⟨t, ht, hq⟩, hs⟩
      subst hs
      rw [classifyLine, List.mem_append]
      left
      unfold classifyProgress
      rw [if_pos (by rw [Bool.and_eq_true]; exact ⟨h1, h2⟩)]
      simp [ht, hq]
  refine ⟨hprog, ?_, ?_⟩
  · intro t ht hq p s h
    obtain ⟨-, -, ⟨t2, ht2, hq2⟩, -⟩ := (hprog p s).mp h
    rw [ht] at ht2
    have ht3 : t2 = t := (Option.some.inj ht2).symm
    rw [ht3, hq] at hq2
    exact Option.noConfusion hq2
  · constructor
    · intro h
      rw [classifyLine, List.mem_append] at h
      rcases h with h | h
      · exact absurd h (converting_not_in_classifyProgress l)
      · unfold classifyConverting at h
        split at h
        next hc => rw [Bool.or_eq_true] at hc; exact hc
        next => simp at h
    · intro h
      rw [classifyLine, List.mem_append]
      right
      unfold classifyConverting
      rw [if_pos (by rw [Bool.or_eq_true]; exact h)]
      simp

/-! Claim C9: the argument list of download_video. -/

theorem pair_infix_mem_dropLast {α : Type} {x y : α} {l : List α}
    (h : [x, y] <:+: l) : x ∈ l.dropLast := by
  obtain ⟨s, t, hst⟩ := h
  rw [← hst, List.append_assoc,
    show [x, y] ++ t = x :: y :: t from rfl,
    List.dropLast_append_cons, List.dropLast_cons₂]
  simp

theorem slash_mem_pathJoin (d f : String) : '/' ∈ (pathJoin d f).data := by
  unfold pathJoin
  rw [String.data_append, String.data_append]
  have hs : ("/" : String).data = ['/'] := rfl
  rw [hs]
  simp

theorem output_template_ne_aq (cfg : DownloadConfig) (t : String) :
    output_template cfg t ≠ "--audio-quality" := by
  intro h
  have h1 := slash_mem_pathJoin cfg.output_dir (t ++ ".%(ext)s")
  rw [show pathJoin cfg.output_dir (t ++ ".%(ext)s") = output_template cfg t
    from rfl, h] at h1
  exact absurd h1 (by decide)

/-- C9: the argument list always carries the playlist-disabling, newline,
thumbnail and metadata flags and the -o template over the sanitized title;
the caller-supplied audio quality is passed (after the --audio-quality flag)
exactly for Mp3; the other three audio variants pass only their audio-format
string; the two video variants pass a format selector with the
merge-output-format flag. -/
theorem c9_argument_list (cfg : DownloadConfig) (title : String) :
    ("--no-playlist" ∈ build_args cfg title ∧
     "--newline" ∈ build_args cfg title ∧
     "--embed-thumbnail" ∈ build_args cfg title ∧
     "--add-metadata" ∈ build_args cfg title) ∧
    ["-o", output_template cfg (sanitize_filename title)] <:+:
      build_args cfg title ∧
    (["--audio-quality", cfg.audio_quality] <:+: build_args cfg title ↔
      cfg.format = DownloadFormat.Mp3) ∧
    (cfg.format = DownloadFormat.Wav →
      ["-x", "--audio-format", "wav"] <:+: build_args cfg title) ∧
    (cfg.format = DownloadFormat.M4a →
      ["-x", "--audio-format", "m4a"] <:+: build_args cfg title) ∧
    (cfg.format = DownloadFormat.Flac →
      ["-x", "--audio-format", "flac"] <:+: build_args cfg title) ∧
    (cfg.format = DownloadFormat.Mp4 →
      ["-f", "bestvideo[ext=mp4]+bestaudio[ext=m4a]/best[ext=mp4]/best",
       "--merge-output-format", "mp4"] <:+: build_args cfg title) ∧
    (cfg.format = DownloadFormat.Webm →
      ["-f", "bestvideo[ext=webm]+bestaudio/best", "--merge-output-format",
       "webm"] <:+: build_args cfg title) := by
  refine ⟨⟨?_, ?_, ?_, ?_⟩, ?_, ?_, ?_, ?_, ?_, ?_, ?_⟩
  · simp [build_args]
  · simp [build_args]
  · simp [build_args]
  · simp [build_args]
  · exact ⟨["--no-playlist", "--newline", "--progress", "--embed-thumbnail",
      "--add-metadata"], format_args cfg ++ [cfg.url], by simp [build_args]⟩
  · constructor
    · intro h
      by_contra hne
      have hx := pair_infix_mem_dropLast h
      have hdrop : (build_args cfg title).dropLast =
          ["--no-playlist", "--newline", "--progress", "--embed-thumbnail",
           "--add-metadata", "-o", output_template cfg (sanitize_filename title)]
          ++ format_args cfg := by
        unfold build_args
        exact List.dropLast_concat
      rw [hdrop] at hx
      cases hf : cfg.format with
      | Mp3 => exact hne hf
      | Wav =>
        simp [format_args, hf] at hx
        exact output_template_ne_aq cfg _ hx.symm
      | M4a =>
        simp [format_args, hf] at hx
        exact output_template_ne_aq cfg _ hx.symm
      | Flac =>
        simp [format_args, hf] at hx
        exact output_template_ne_aq cfg _ hx.symm
      | Mp4 =>
        simp [format_args, hf] at hx
        exact output_template_ne_aq cfg _ hx.symm
      | Webm =>
        simp [format_args, hf] at hx
        exact output_template_ne_aq cfg _ hx.symm
    · intro hf
      exact ⟨["--no-playlist", "--newline", "--progress", "--embed-thumbnail",
        "--add-metadata", "-o", output_template cfg (sanitize_filename title),
        "-x", "--audio-format", "mp3"], [cfg.url],
        by simp [build_args, format_args, hf]⟩
  · intro hf
    exact ⟨["--no-playlist", "--newline", "--progress", "--embed-thumbnail",
      "--add-metadata", "-o", output_template cfg (sanitize_filename title)],
      [cfg.url], by simp [build_args, format_args, hf]⟩
  · intro hf
    exact ⟨["--no-playlist", "--newline", "--progress", "--embed-thumbnail",
      "--add-metadata", "-o", output_template cfg (sanitize_filename title)],
      [cfg.url], by simp [build_args, format_args, hf]⟩
  · intro hf
    exact ⟨["--no-playlist", "--newline", "--progress", "--embed-thumbnail",
      "--add-metadata", "-o", output_template cfg (sanitize_filename title)],
      [cfg.url], by simp [build_args, format_args, hf]⟩
  · intro hf
    exact ⟨["--no-playlist", "--newline", "--progress", "--embed-thumbnail",
      "--add-metadata", "-o", output_template cfg (sanitize_filename title)],
      [cfg.url], by simp [build_args, format_args, hf]⟩
  · intro hf
    exact ⟨["--no-playlist", "--newline", "--progress", "--embed-thumbnail",
      "--add-metadata", "-o", output_template cfg (sanitize_filename title)],
      [cfg.url], by simp [build_args, format_args, hf]⟩
